import Mathlib

/-!
# Verification of `build_index.py` (gallery indexer)

Shallow embedding of the gallery indexer `src/build_index.py` and proofs about
its folder-discovery, cover-image lookup, sort-key derivation, ordering and
page-emission behaviour.

Modelling conventions:

* The filesystem is a finite listing tree (`FSNode`): a node is a file or a
  directory with an ordered list of children, the order being the order in
  which `Path.iterdir` yields entries.  Paths are strings relative to the
  scanned root, joined with `/` (the POSIX behaviour of `pathlib`).
* `Path.exists()` is true for a child of either kind (file or directory);
  `f.is_file()` distinguishes files.  This matters for the exact-name probes
  in `has_title_image` and `link_target`.
* Python `str.lower()` and the regex class `\d` are modelled on ASCII
  characters (`Char.toLower`, digits `0`–`9`); all inputs considered in the
  theorems are ASCII.  Python string comparison is code-point lexicographic,
  modelled by `strLtB` over `Char.toNat`.
* `datetime.datetime.strptime(ymd, "%Y%m%d")` succeeds exactly on 8-digit
  strings encoding a valid proleptic-Gregorian calendar date with
  `1 ≤ year ≤ 9999`; a `datetime.date` is modelled as the number
  `y*10000 + m*100 + d`, whose `Nat` order agrees with `date` order.
* `list.sort(key=..., reverse=...)` is a stable sort by the (total, reflexive,
  transitive) key comparison.  A stable sort of a list with respect to a total
  preorder is unique, so it is modelled by `List.insertionSort` (which is
  stable) with the corresponding relation; `reverse=True` stable-sorts by the
  flipped key comparison, ties keeping list order.
* `main` performs exactly one write: `OUTPUT_FILE` at the root, with the text
  produced by `build_html`; `main_outputs` lists the `(path, text)` pairs
  written.  The `print` to stdout is not an output artifact.
-/

namespace BuildIndex

/-- One filesystem entry as seen by a directory scan: a plain file, or a
directory together with its direct children in `iterdir` order. -/
inductive FSNode where
  | file (name : String)
  | dir (name : String) (children : List FSNode)

/-- Base name of a node (`Path.name`). -/
def FSNode.name : FSNode → String
  | .file n => n
  | .dir n _ => n

/-- Whether a node is a regular file (`Path.is_file()`). -/
def FSNode.isFile : FSNode → Bool
  | .file _ => true
  | .dir _ _ => false

/-- Direct children of a node (`Path.iterdir()`, empty for a file). -/
def FSNode.children : FSNode → List FSNode
  | .file _ => []
  | .dir _ cs => cs

/-- `IMAGE_BASENAME = "title"` from the configuration block. -/
def IMAGE_BASENAME : String := "title"

/-- `IMAGE_EXTS = [".jpg", ".jpeg", ".png", ".webp", ".gif"]`. -/
def IMAGE_EXTS : List String := [".jpg", ".jpeg", ".png", ".webp", ".gif"]

/-- `EXCLUDE_DIR_PREFIXES = (".", "_")`. -/
def EXCLUDE_DIR_PREFIXES : List String := [".", "_"]

/-- `SORT_DESC = True` (newest first). -/
def SORT_DESC : Bool := true

/-- `OUTPUT_FILE = "index.html"`. -/
def OUTPUT_FILE : String := "index.html"

/-- Index of the last `'.'` in a character list, if any. -/
def rfindDot : List Char → Option Nat
  | [] => none
  | c :: rest =>
    match rfindDot rest with
    | some i => some (i + 1)
    | none => if c = '.' then some 0 else none

/-- `pathlib.PurePath.suffix` of a base name: `name[i:]` for the last dot at
position `i` with `0 < i < len(name) - 1`, else the empty string. -/
def pathSuffix (name : String) : String :=
  match rfindDot name.data with
  | some i => if 0 < i ∧ i < name.data.length - 1 then ⟨name.data.drop i⟩ else ""
  | none => ""

/-- `pathlib.PurePath.stem` of a base name: `name[:i]` for the last dot at
position `i` with `0 < i < len(name) - 1`, else the whole name. -/
def pathStem (name : String) : String :=
  match rfindDot name.data with
  | some i => if 0 < i ∧ i < name.data.length - 1 then ⟨name.data.take i⟩ else name
  | none => name

/-- `str.lower()` on ASCII text. -/
def lowerStr (s : String) : String := ⟨s.data.map Char.toLower⟩

/-- The per-file test of the scan loop in `has_title_image`:
`f.is_file() and f.suffix.lower() == ext and f.stem.lower() == IMAGE_BASENAME`. -/
def isTitleScanHit (ext : String) (f : FSNode) : Bool :=
  f.isFile && lowerStr (pathSuffix f.name) == ext && lowerStr (pathStem f.name) == IMAGE_BASENAME

/-- The inner `for f in folder.iterdir()` loop of `has_title_image` for one
extension: the first child that passes `isTitleScanHit`, by name. -/
def scanForExt (cs : List FSNode) (ext : String) : Option String :=
  (cs.find? (isTitleScanHit ext)).map FSNode.name

/-- The exact, case-sensitive probe `(folder / f"{IMAGE_BASENAME}{ext}").exists()`:
true when a child of either kind carries exactly that name. -/
def hasExactTitle (cs : List FSNode) (ext : String) : Bool :=
  cs.any (fun c => c.name == IMAGE_BASENAME ++ ext)

/-- The `for ext in IMAGE_EXTS` loop of `has_title_image`: for each extension
in turn, first the exact probe, then the case-insensitive scan for that same
extension; the first hit is returned. -/
def titleImageLoop (cs : List FSNode) : List String → Option String
  | [] => none
  | ext :: rest =>
    if hasExactTitle cs ext then some (IMAGE_BASENAME ++ ext)
    else
      match scanForExt cs ext with
      | some n => some n
      | none => titleImageLoop cs rest

/-- `has_title_image(folder)`: the base name (within the folder) of the found
title image, or `none`. -/
def has_title_image (cs : List FSNode) : Option String :=
  titleImageLoop cs IMAGE_EXTS

/-- `link_target(folder)`: the path (relative to root) the folder's card links
to — `folder/_index.html` when a child of that name exists, else the folder
path itself. -/
def link_target (folderName : String) (cs : List FSNode) : String :=
  if cs.any (fun c => c.name == "_index.html") then folderName ++ "/_index.html"
  else folderName

/-- ASCII decimal digit test (the regex class `\d` on ASCII input). -/
def isAsciiDigit (c : Char) : Bool := decide (48 ≤ c.toNat ∧ c.toNat ≤ 57)

/-- Numeric value of a list of ASCII digits. -/
def digitsVal (cs : List Char) : Nat := cs.foldl (fun a c => a * 10 + (c.toNat - 48)) 0

/-- Gregorian leap-year rule used by `datetime`. -/
def isLeapYear (y : Nat) : Bool := y % 4 == 0 && (y % 100 != 0 || y % 400 == 0)

/-- Number of days of month `m` in year `y`. -/
def daysInMonth (y m : Nat) : Nat :=
  if m == 2 then (if isLeapYear y then 29 else 28)
  else if m == 4 || m == 6 || m == 9 || m == 11 then 30
  else 31

/-- Validity of a `datetime.date(y, m, d)`, the condition under which
`strptime(ymd, "%Y%m%d")` succeeds on the 8 digits. -/
def validDate (y m d : Nat) : Bool :=
  decide (1 ≤ y) && decide (y ≤ 9999) && decide (1 ≤ m) && decide (m ≤ 12) &&
  decide (1 ≤ d) && decide (d ≤ daysInMonth y m)

/-- `re.match(r"^(\d{8})", name)` (ASCII): the first 8 characters exist and
are digits. -/
def hasEightDigits (name : String) : Bool :=
  decide (8 ≤ name.data.length) && (name.data.take 8).all isAsciiDigit

/-- Year, month and day fields of the leading 8 characters. -/
def prefixYMD (name : String) : Nat × Nat × Nat :=
  (digitsVal (name.data.take 4), digitsVal ((name.data.drop 4).take 2),
    digitsVal ((name.data.drop 6).take 2))

/-- `looks_like_yyyymmdd_prefix(name)` from the source: `some` of the encoded
parsed date when the name starts with 8 digits forming a valid calendar date,
else `none` (covering both the no-match and the `ValueError` branch). -/
def looks_like_yyyymmdd (name : String) : Option Nat :=
  if hasEightDigits name then
    if validDate (prefixYMD name).1 (prefixYMD name).2.1 (prefixYMD name).2.2 then
      some ((prefixYMD name).1 * 10000 + (prefixYMD name).2.1 * 100 + (prefixYMD name).2.2)
    else none
  else none

/-- `datetime.date(1900, 1, 1)`, the fallback key date for non-dated names. -/
def FALLBACK_DATE : Nat := 19000101

/-- `sort_key(item)` from `collect_entries`: `(parsed date, name)` for a valid
dated prefix, else `(date(1900,1,1), name)`. -/
def sort_key (name : String) : Nat × String :=
  match looks_like_yyyymmdd name with
  | some dt => (dt, name)
  | none => (FALLBACK_DATE, name)

/-- Code-point lexicographic strict order on character lists — Python's `<`
on strings. -/
def strLtB : List Char → List Char → Bool
  | _, [] => false
  | [], _ :: _ => true
  | a :: as, b :: bs =>
    if a.toNat < b.toNat then true
    else if b.toNat < a.toNat then false
    else strLtB as bs

/-- Python's `<=` on sort keys `(date, name)`: lexicographic on the date
number, then on the name by code points. -/
def keyLeB (a b : Nat × String) : Bool :=
  if a.1 < b.1 then true
  else if b.1 < a.1 then false
  else !(strLtB b.2.data a.2.data)

/-- One gallery entry: the dict `{"name": .., "dir": .., "img": .., "href": ..}`
built in `collect_entries`, with `img`/`href` as root-relative paths. -/
structure Entry where
  name : String
  img : String
  href : String
deriving DecidableEq

/-- `d.name.startswith(EXCLUDE_DIR_PREFIXES)`. -/
def startsWithExcluded (name : String) : Bool :=
  EXCLUDE_DIR_PREFIXES.any (fun p => p.data.isPrefixOf name.data)

/-- Processing of one candidate child in `collect_entries`: skip files
(`is_dir` filter), skip excluded names, skip folders with no title image;
otherwise build the entry record. -/
def entryOf : FSNode → Option Entry
  | .file _ => none
  | .dir n cs =>
    if startsWithExcluded n then none
    else
      match has_title_image cs with
      | none => none
      | some img => some { name := n, img := n ++ "/" ++ img, href := link_target n cs }

/-- Key comparison between entries, ascending: the relation under which
`folders.sort(key=sort_key)` stably sorts. -/
def entryLe (a b : Entry) : Prop := keyLeB (sort_key a.name) (sort_key b.name) = true

/-- Key comparison between entries, descending: the relation under which
`folders.sort(key=sort_key, reverse=True)` stably sorts. -/
def entryGe (a b : Entry) : Prop := entryLe b a

instance : DecidableRel entryLe := fun _ _ => Bool.decEq _ _

instance : DecidableRel entryGe := fun _ _ => Bool.decEq _ _

/-- `folders.sort(key=sort_key, reverse=desc)`: the stable sort of the entry
list by key, flipped when `desc` is true. -/
def pySortEntries (desc : Bool) (l : List Entry) : List Entry :=
  if desc then List.insertionSort entryGe l else List.insertionSort entryLe l

/-- `collect_entries(root)` with the sort direction as an explicit
configuration value (the source fixes `SORT_DESC = True` at build time):
filter the direct children, build entries, sort. -/
def collect_entries_cfg (desc : Bool) (rootChildren : List FSNode) : List Entry :=
  pySortEntries desc (rootChildren.filterMap entryOf)

/-- `collect_entries(root)` as shipped, with the default descending order. -/
def collect_entries (rootChildren : List FSNode) : List Entry :=
  collect_entries_cfg SORT_DESC rootChildren

/-- Uppercase hexadecimal digit. -/
def hexDigitChar (n : Nat) : Char := if n < 10 then Char.ofNat (48 + n) else Char.ofNat (55 + n)

/-- Two-digit uppercase hex rendering of a byte. -/
def hex2 (b : Nat) : List Char := [hexDigitChar (b / 16), hexDigitChar (b % 16)]

/-- UTF-8 encoding of a character as a byte list. -/
def utf8Bytes (c : Char) : List Nat :=
  let n := c.toNat
  if n < 128 then [n]
  else if n < 2048 then [192 + n / 64, 128 + n % 64]
  else if n < 65536 then [224 + n / 4096, 128 + (n / 64) % 64, 128 + n % 64]
  else [240 + n / 262144, 128 + (n / 4096) % 64, 128 + (n / 64) % 64, 128 + n % 64]

/-- Characters `urllib.parse.quote` leaves unescaped with the default
`safe='/'`: ASCII letters, digits, `_.-~` and `/`. -/
def quoteSafe (c : Char) : Bool :=
  decide (65 ≤ c.toNat ∧ c.toNat ≤ 90) || decide (97 ≤ c.toNat ∧ c.toNat ≤ 122) ||
  decide (48 ≤ c.toNat ∧ c.toNat ≤ 57) ||
  c == '_' || c == '.' || c == '-' || c == '~' || c == '/'

/-- Rendering of one character under `urllib.parse.quote`. -/
def quoteChar (c : Char) : List Char :=
  if quoteSafe c then [c]
  else (utf8Bytes c).foldr (fun b acc => '%' :: (hex2 b ++ acc)) []

/-- `urllib.parse.quote(s)` with the default `safe='/'`. -/
def urlQuote (s : String) : String := ⟨s.data.foldr (fun c acc => quoteChar c ++ acc) []⟩

/-- `str(path).replace("\\", "/")` — backslash normalisation before quoting. -/
def slashify (s : String) : String := ⟨s.data.map (fun c => if c = '\\' then '/' else c)⟩

/-- URL rendering of a root-relative path as done in `build_html`. -/
def urlOfPath (s : String) : String := urlQuote (slashify s)

/-- One card of the grid: the stripped per-entry f-string of `build_html`,
with the URL-quoted `href` and `img` paths and the folder name as alt text
and caption. -/
def cardHtml (e : Entry) : String :=
  "<a class=\x22card\x22 href=\x22" ++ urlOfPath e.href ++ "\x22>\n          <figure>\n            <img src=\x22" ++ urlOfPath e.img ++ "\x22 alt=\x22" ++ e.name ++ "\x22 loading=\x22lazy\x22 />\n            <figcaption>" ++ e.name ++ "</figcaption>\n          </figure>\n        </a>"

/-- `"\n".join(cards_html)`. -/
def joinWithNewline : List String → String
  | [] => ""
  | [s] => s
  | s :: rest => s ++ "\n" ++ joinWithNewline rest

/-- The placeholder paragraph emitted when no folder qualifies. -/
def EMPTY_PLACEHOLDER : String := "<p>目前沒有找到任何含 title 圖片的子資料夾。</p>"

/-- The `cards` value interpolated into the page template: joined cards, or
the fixed placeholder when the entry list is empty. -/
def cardsSection (entries : List Entry) : String :=
  if entries.isEmpty then EMPTY_PLACEHOLDER
  else joinWithNewline (entries.map cardHtml)
def HTML_BEFORE_CARDS : String :=
  "<!DOCTYPE html>\n<html lang=\x22zh-Hant\x22>\n<head>\n<meta charset=\x22utf-8\x22 />\n<meta name=\x22viewport\x22 content=\x22width=device-width, initial-scale=1\x22 />\n<title>Gallery</title>\n<meta name=\x22robots\x22 content=\x22index,follow\x22>\n<style>\n:root \x7b\n  --bg: #0b0b0c;\n  --fg: #f4f4f5;\n  --muted: #a1a1aa;\n  --card: #151518;\n  --accent: #8b5cf6;\n  --maxw: 360px;\n\x7d\n* \x7b box-sizing: border-box; \x7d\nhtml, body \x7b\n  margin: 0; padding: 0; background: var(--bg); color: var(--fg);\n  font-family: ui-sans-serif, system-ui, -apple-system, \x22Segoe UI\x22, Roboto, \x22Noto Sans\x22, \x22Helvetica Neue\x22, Arial, \x22Apple Color Emoji\x22, \x22Segoe UI Emoji\x22;\n\x7d\nheader \x7b\n  padding: 24px 16px;\n  position: sticky; top: 0; backdrop-filter: blur(8px);\n  background: linear-gradient(to bottom, rgba(11,11,12,0.8), rgba(11,11,12,0.2) 80%, transparent);\n  z-index: 10;\n  border-bottom: 1px solid rgba(255,255,255,0.05);\n\x7d\nh1 \x7b margin: 0 0 6px 0; font-size: 20px; letter-spacing: .3px; \x7d\n.sub \x7b color: var(--muted); font-size: 13px; \x7d\n.searchbar \x7b\n  margin-top: 12px; display: flex; gap: 8px; align-items: center;\n\x7d\ninput[type=\x22search\x22] \x7b\n  flex: 1; padding: 10px 12px; border-radius: 12px; border: 1px solid #26262b; background: #0f0f12; color: var(--fg);\n  outline: none;\n\x7d\nmain \x7b\n  padding: 20px 10px 40px;\n  max-width: 1300px; margin: 0 auto;\n\x7d\n.grid \x7b\n  display: grid;\n  grid-template-columns: repeat(auto-fit, minmax(var(--maxw), 1fr));\n  gap: 16px;\n\x7d\n.card \x7b\n  display: block; background: var(--card); border: 1px solid #232329; border-radius: 16px; overflow: hidden;\n  text-decoration: none; color: inherit;\n  transition: transform .15s ease, border-color .2s ease, box-shadow .2s ease;\n\x7d\n.card:hover \x7b\n  transform: translateY(-2px);\n  border-color: #3a3a45;\n  box-shadow: 0 10px 24px rgba(0,0,0,.35);\n\x7d\nfigure \x7b margin: 0; \x7d\nimg \x7b\n  display: block; width: 100%; height: auto; object-fit: cover; aspect-ratio: 16/9; background: #0f0f12;\n\x7d\nfigcaption \x7b\n  padding: 10px 12px;\n  font-size: 14px; color: var(--fg); border-top: 1px solid #232329;\n  white-space: nowrap; overflow: hidden; text-overflow: ellipsis;\n\x7d\n.badge \x7b\n  display: inline-flex; align-items: center; gap: 6px;\n  font-size: 12px; color: var(--muted);\n  padding: 4px 8px; border: 1px solid #26262b; border-radius: 999px;\n\x7d\n.footer \x7b\n  text-align: center; color: var(--muted); font-size: 12px; padding: 24px 10px 40px;\n\x7d\n.hidden \x7b display:none !important; \x7d\n</style>\n</head>\n<body>\n<header>\n  <div class=\x22head\x22>\n    <h1>📸 My Daily Drops</h1>\n    <div class=\x22sub\x22>點縮圖進入各日的 _index.html</div>\n    <div class=\x22searchbar\x22>\n      <span class=\x22badge\x22>🔎 搜尋資料夾</span>\n      <input id=\x22q\x22 type=\x22search\x22 placeholder=\x22輸入關鍵字（例如 20250910 或 github）…\x22 />\n    </div>\n  </div>\n</header>\n\n<main>\n  <div id=\x22grid\x22 class=\x22grid\x22>\n    "

def HTML_AFTER_CARDS : String :=
  "\n  </div>\n</main>\n\n<div class=\x22footer\x22>Generated by build_index.py</div>\n\n<script>\nconst q = document.getElementById(\x27q\x27);\nconst grid = document.getElementById(\x27grid\x27);\n\nq?.addEventListener(\x27input\x27, (e) => \x7b\n  const term = (e.target.value || \x27\x27).trim().toLowerCase();\n  const cards = grid.querySelectorAll(\x27.card\x27);\n  if (!term) \x7b\n    cards.forEach(c => c.classList.remove(\x27hidden\x27));\n    return;\n  \x7d\n  cards.forEach(c => \x7b\n    const cap = c.querySelector(\x27figcaption\x27)?.textContent?.toLowerCase() || \x27\x27;\n    if (cap.includes(term)) \x7b\n      c.classList.remove(\x27hidden\x27);\n    \x7d else \x7b\n      c.classList.add(\x27hidden\x27);\n    \x7d\n  \x7d);\n\x7d);\n</script>\n</body>\n</html>\n"

/-- `build_html(entries)`: the full page text — the constant template around
the cards section (the template's interpolations other than `cards` are
build-time constants, already substituted). -/
def build_html (entries : List Entry) : String :=
  HTML_BEFORE_CARDS ++ cardsSection entries ++ HTML_AFTER_CARDS

/-- The files written by `main`: exactly one artifact, `OUTPUT_FILE` at the
root, holding the page text (stdout logging is not a file). -/
def main_outputs (rootChildren : List FSNode) : List (String × String) :=
  [(OUTPUT_FILE, build_html (collect_entries rootChildren))]

/-- The text `main` writes into `OUTPUT_FILE`. -/
def run_output (rootChildren : List FSNode) : String :=
  build_html (collect_entries rootChildren)

/-- Root listing after a successful run: the previous `OUTPUT_FILE` file (if
any) replaced by the freshly written one.  Models the state the next run
scans; a successful `write_text` presupposes no directory of that name. -/
def after_run (rootChildren : List FSNode) : List FSNode :=
  (rootChildren.filter (fun c => !(c.isFile && c.name == OUTPUT_FILE))) ++
    [FSNode.file OUTPUT_FILE]

/-- Folder qualification exactly as the specification's entry invariant words
it: a direct child directory, not starting with an excluded, containing a
*file* whose stem lowercases to the basename and whose suffix lowercases into
the allowed extension list. -/
def specTitleFile (cs : List FSNode) : Prop :=
  ∃ c ∈ cs, c.isFile = true ∧ lowerStr (pathStem c.name) = IMAGE_BASENAME ∧
    lowerStr (pathSuffix c.name) ∈ IMAGE_EXTS

/-- Modelled from the spec: the spec's Entry-invariant side condition for one
candidate folder. -/
def specQualifies (d : FSNode) : Prop :=
  d.isFile = false ∧ startsWithExcluded d.name = false ∧ specTitleFile d.children

/-- Folder qualification as the code implements it: additionally to the
spec's file-based clause, an exact-named `title.<ext>` child of *any* kind
(the `Path.exists()` probe) makes the folder qualify. -/
def titleMatchable (cs : List FSNode) : Prop :=
  ∃ ext ∈ IMAGE_EXTS,
    (∃ c ∈ cs, c.name = IMAGE_BASENAME ++ ext) ∨
    (∃ c ∈ cs, c.isFile = true ∧ lowerStr (pathSuffix c.name) = ext ∧
      lowerStr (pathStem c.name) = IMAGE_BASENAME)

/-- Folder qualification under which the code emits an entry. -/
def qualifies (d : FSNode) : Prop :=
  d.isFile = false ∧ startsWithExcluded d.name = false ∧ titleMatchable d.children

instance (cs : List FSNode) : Decidable (specTitleFile cs) := by
  unfold specTitleFile; infer_instance

instance (d : FSNode) : Decidable (specQualifies d) := by
  unfold specQualifies; infer_instance

instance (cs : List FSNode) : Decidable (titleMatchable cs) := by
  unfold titleMatchable; infer_instance

instance (d : FSNode) : Decidable (qualifies d) := by
  unfold qualifies; infer_instance

/-- Ordering obligation between two entries placed in this order by the
descending sort: if the earlier one is non-dated, the later one cannot carry
a parsed date after the fallback date. -/
def undatedAfterDated (a b : Entry) : Prop :=
  looks_like_yyyymmdd a.name = none →
    ∀ dt, looks_like_yyyymmdd b.name = some dt → dt ≤ FALLBACK_DATE

/-- Root with one dated folder whose title image is a *directory* named
`title.jpg`. -/
def exC1 : List FSNode := [FSNode.dir "20240101_x" [FSNode.dir "title.jpg" []]]

/-- Root with the two dated trip folders of the specification's example. -/
def exTrips : List FSNode :=
  [FSNode.dir "20240101_trip" [FSNode.file "title.jpg"],
   FSNode.dir "20240102_trip" [FSNode.file "title.jpg"]]

/-- Root with two folders sharing the same date prefix. -/
def exTie : List FSNode :=
  [FSNode.dir "20240101_aaa" [FSNode.file "title.jpg"],
   FSNode.dir "20240101_bbb" [FSNode.file "title.jpg"]]

/-- Root with a non-dated folder and a dated folder. -/
def exC3 : List FSNode :=
  [FSNode.dir "readme" [FSNode.file "title.jpg"],
   FSNode.dir "20240101_trip" [FSNode.file "title.jpg"]]

/-- Root with a folder dated exactly at the fallback date and a non-dated
folder. -/
def exC3edge : List FSNode :=
  [FSNode.dir "19000101_a" [FSNode.file "title.jpg"],
   FSNode.dir "readme" [FSNode.file "title.jpg"]]

/-- Folder listing with a case-variant `.jpg` candidate and an exact-named
`.png` candidate. -/
def exC4cs : List FSNode := [FSNode.file "TITLE.JPG", FSNode.file "title.png"]

/-- Root with one qualifying folder and no `_index.html`. -/
def exC5 : List FSNode := [FSNode.dir "20240101_trip" [FSNode.file "title.jpg"]]

/-- Root with one qualifying folder containing `_index.html`. -/
def exC5idx : List FSNode :=
  [FSNode.dir "20240101_trip" [FSNode.file "title.jpg", FSNode.file "_index.html"]]

/-- Root whose only folder is excluded, so no entry is collected. -/
def exEmpty : List FSNode := [FSNode.dir "_drafts" [FSNode.file "title.jpg"]]

/-- Root fragment used around the imageless folder in the C8 witness. -/
def exC8pre : List FSNode := [FSNode.dir "20240101_a" [FSNode.file "title.jpg"]]

/-- Children of a folder with no title-image candidate at all. -/
def exC8cs : List FSNode := [FSNode.file "notes.txt"]

/-- The entry collected from `exC5idx`. -/
def exC5entry : Entry :=
  { name := "20240101_trip", img := "20240101_trip/title.jpg",
    href := "20240101_trip/_index.html" }

/-! ### Helper lemmas: the key comparison is a total preorder -/

theorem strLtB_nil_right (as : List Char) : strLtB as [] = false := by
  cases as <;> rfl

theorem strLtB_cons (a b : Char) (as bs : List Char) :
    strLtB (a :: as) (b :: bs) =
      if a.toNat < b.toNat then true
      else if b.toNat < a.toNat then false
      else strLtB as bs := rfl

theorem strLtB_false_trans : ∀ as bs cs : List Char,
    strLtB bs as = false → strLtB cs bs = false → strLtB cs as = false := by
  intro as
  induction as with
  | nil => intro bs cs _ _; exact strLtB_nil_right cs
  | cons a as ih =>
    intro bs cs h1 h2
    cases bs with
    | nil => exact absurd h1 (by simp [strLtB])
    | cons b bs =>
      cases cs with
      | nil => exact absurd h2 (by simp [strLtB])
      | cons c cs =>
        rw [strLtB_cons] at h1 h2 ⊢
        have hba : ¬ b.toNat < a.toNat := by
          intro hc; rw [if_pos hc] at h1; exact Bool.noConfusion h1
        have hcb : ¬ c.toNat < b.toNat := by
          intro hc; rw [if_pos hc] at h2; exact Bool.noConfusion h2
        have hca : ¬ c.toNat < a.toNat := by omega
        rw [if_neg hca]
        by_cases hac : a.toNat < c.toNat
        · rw [if_pos hac]
        · rw [if_neg hac]
          have hab : ¬ a.toNat < b.toNat := by omega
          have hbc : ¬ b.toNat < c.toNat := by omega
          rw [if_neg hba, if_neg hab] at h1
          rw [if_neg hcb, if_neg hbc] at h2
          exact ih bs cs h1 h2

theorem strLtB_asymm : ∀ as bs : List Char, strLtB as bs = true → strLtB bs as = false := by
  intro as
  induction as with
  | nil => intro bs _; exact strLtB_nil_right bs
  | cons a as ih =>
    intro bs h
    cases bs with
    | nil => exact absurd h (by simp [strLtB_nil_right])
    | cons b bs =>
      rw [strLtB_cons] at h ⊢
      by_cases hab : a.toNat < b.toNat
      · have hba : ¬ b.toNat < a.toNat := by omega
        rw [if_neg hba, if_pos hab]
      · rw [if_neg hab] at h
        by_cases hba : b.toNat < a.toNat
        · rw [if_pos hba] at h; exact Bool.noConfusion h
        · rw [if_neg hba] at h
          rw [if_neg hba, if_neg hab]
          exact ih bs h

theorem keyLeB_total (a b : Nat × String) : keyLeB a b = true ∨ keyLeB b a = true := by
  unfold keyLeB
  rcases Nat.lt_trichotomy a.1 b.1 with h | h | h
  · left; rw [if_pos h]
  · by_cases hs : strLtB b.2.data a.2.data = true
    · right
      rw [if_neg (by omega), if_neg (by omega)]
      rw [strLtB_asymm _ _ hs]
      rfl
    · left
      rw [if_neg (by omega), if_neg (by omega)]
      rw [Bool.not_eq_true] at hs
      rw [hs]
      rfl
  · right; rw [if_pos h]

theorem keyLeB_fst_le (a b : Nat × String) (h : keyLeB a b = true) : a.1 ≤ b.1 := by
  unfold keyLeB at h
  by_contra hc
  rw [if_neg (by omega), if_pos (by omega)] at h
  exact Bool.noConfusion h

theorem keyLeB_trans (a b c : Nat × String)
    (h1 : keyLeB a b = true) (h2 : keyLeB b c = true) : keyLeB a c = true := by
  have hab := keyLeB_fst_le _ _ h1
  have hbc := keyLeB_fst_le _ _ h2
  unfold keyLeB at *
  by_cases h : a.1 < c.1
  · rw [if_pos h]
  · have heb : a.1 = b.1 := by omega
    have hec : b.1 = c.1 := by omega
    rw [if_neg h, if_neg (by omega)]
    rw [if_neg (by omega), if_neg (by omega)] at h1
    rw [if_neg (by omega), if_neg (by omega)] at h2
    rw [Bool.not_eq_true'] at h1 h2 ⊢
    exact strLtB_false_trans _ _ _ h1 h2

instance : IsTotal Entry entryLe := ⟨fun a b => keyLeB_total (sort_key a.name) (sort_key b.name)⟩

instance : IsTrans Entry entryLe := ⟨fun _ _ _ h1 h2 => keyLeB_trans _ _ _ h1 h2⟩

instance : IsTotal Entry entryGe := ⟨fun a b => (keyLeB_total (sort_key a.name) (sort_key b.name)).symm⟩

instance : IsTrans Entry entryGe := ⟨fun _ _ _ h1 h2 => keyLeB_trans _ _ _ h2 h1⟩

theorem pySortEntries_perm (desc : Bool) (l : List Entry) : (pySortEntries desc l).Perm l := by
  unfold pySortEntries
  split
  · exact List.perm_insertionSort entryGe l
  · exact List.perm_insertionSort entryLe l

theorem collect_cfg_pairwise_desc (roots : List FSNode) :
    (collect_entries_cfg true roots).Pairwise entryGe :=
  List.sorted_insertionSort entryGe (roots.filterMap entryOf)

theorem collect_cfg_pairwise_asc (roots : List FSNode) :
    (collect_entries_cfg false roots).Pairwise entryLe :=
  List.sorted_insertionSort entryLe (roots.filterMap entryOf)

/-! ### Helper lemmas: entry construction -/

theorem titleImageLoop_isSome_iff (cs : List FSNode) :
    ∀ exts : List String, (titleImageLoop cs exts).isSome = true ↔
      ∃ ext ∈ exts,
        (∃ c ∈ cs, c.name = IMAGE_BASENAME ++ ext) ∨
        (∃ c ∈ cs, c.isFile = true ∧ lowerStr (pathSuffix c.name) = ext ∧
          lowerStr (pathStem c.name) = IMAGE_BASENAME) := by
  intro exts
  induction exts with
  | nil => simp [titleImageLoop]
  | cons ext rest ih =>
    simp only [titleImageLoop]
    by_cases hex : hasExactTitle cs ext = true
    · rw [if_pos hex]
      simp only [Option.isSome_some, true_iff]
      refine ⟨ext, by simp, Or.inl ?_⟩
      simpa [hasExactTitle, List.any_eq_true, beq_iff_eq] using hex
    · rw [if_neg hex]
      cases hscan : scanForExt cs ext with
      | some nm =>
        simp only [Option.isSome_some, true_iff]
        have hfind : ∃ c ∈ cs, isTitleScanHit ext c = true := by
          unfold scanForExt at hscan
          cases hf : cs.find? (isTitleScanHit ext) with
          | none => rw [hf] at hscan; exact Option.noConfusion hscan
          | some c => exact ⟨c, List.mem_of_find?_eq_some hf, List.find?_some hf⟩
        obtain ⟨c, hc, hhit⟩ := hfind
        refine ⟨ext, by simp, Or.inr ⟨c, hc, ?_⟩⟩
        simpa [isTitleScanHit, Bool.and_eq_true, beq_iff_eq, and_assoc] using hhit
      | none =>
        rw [ih]
        constructor
        · rintro ⟨e, he, hcase⟩
          exact ⟨e, by simp [he], hcase⟩
        · rintro ⟨e, he, hcase⟩
          rcases List.mem_cons.mp he with rfl | he'
          · rcases hcase with hexact | hscanhit
            · exact absurd (by simpa [hasExactTitle, List.any_eq_true, beq_iff_eq]
                using hexact) hex
            · obtain ⟨c, hc, h1, h2, h3⟩ := hscanhit
              have hhit : isTitleScanHit e c = true := by
                simp [isTitleScanHit, h1, h2, h3]
              have hnone : cs.find? (isTitleScanHit e) = none := by
                have := hscan
                unfold scanForExt at this
                exact Option.map_eq_none'.mp this
              have := List.find?_eq_none.mp hnone c hc
              exact absurd hhit (by simpa using this)
          · exact ⟨e, he', hcase⟩

theorem has_title_image_isSome_iff (cs : List FSNode) :
    (has_title_image cs).isSome = true ↔ titleMatchable cs :=
  titleImageLoop_isSome_iff cs IMAGE_EXTS

theorem entryOf_name (d : FSNode) (e : Entry) (h : entryOf d = some e) : e.name = d.name := by
  cases d with
  | file n => exact absurd h (by simp [entryOf])
  | dir n cs =>
    simp only [entryOf] at h
    by_cases hexc : startsWithExcluded n = true
    · rw [if_pos hexc] at h; exact Option.noConfusion h
    · rw [if_neg hexc] at h
      cases him : has_title_image cs with
      | none => rw [him] at h; exact Option.noConfusion h
      | some img =>
        rw [him] at h
        cases h
        rfl

theorem entryOf_isSome_iff (d : FSNode) : (entryOf d).isSome = true ↔ qualifies d := by
  cases d with
  | file n =>
    simp only [entryOf, Option.isSome_none, qualifies]
    constructor
    · intro h; exact Bool.noConfusion h
    · rintro ⟨h, -, -⟩; exact Bool.noConfusion h
  | dir n cs =>
    simp only [entryOf]
    by_cases hexc : startsWithExcluded n = true
    · rw [if_pos hexc]
      simp only [Option.isSome_none, qualifies]
      constructor
      · intro h; exact Bool.noConfusion h
      · rintro ⟨-, h2, -⟩
        have h3 : startsWithExcluded n = false := h2
        rw [hexc] at h3
        exact Bool.noConfusion h3
    · rw [if_neg hexc]
      cases him : has_title_image cs with
      | none =>
        simp only [Option.isSome_none]
        constructor
        · intro h; exact Bool.noConfusion h
        · rintro ⟨-, -, hm⟩
          have hs := (has_title_image_isSome_iff cs).mpr hm
          rw [him] at hs
          exact Bool.noConfusion hs
      | some img =>
        simp only [Option.isSome_some, true_iff]
        refine ⟨rfl, by simpa using hexc, ?_⟩
        exact (has_title_image_isSome_iff cs).mp (by rw [him]; rfl)

theorem filterMap_entryOf_names :
    ∀ roots : List FSNode, (roots.filterMap entryOf).map Entry.name =
      (roots.filter fun d => decide (qualifies d)).map FSNode.name := by
  intro roots
  induction roots with
  | nil => rfl
  | cons d rest ih =>
    rw [List.filterMap_cons, List.filter_cons]
    cases he : entryOf d with
    | none =>
      have hq : ¬ qualifies d := by
        intro hq
        have hs := (entryOf_isSome_iff d).mpr hq
        rw [he] at hs
        exact Bool.noConfusion hs
      rw [if_neg (by simpa using hq)]
      exact ih
    | some e =>
      have hq : qualifies d := (entryOf_isSome_iff d).mp (by rw [he]; rfl)
      rw [if_pos (by simpa using hq)]
      simp only [List.map_cons]
      rw [entryOf_name d e he, ih]

theorem collect_names_perm (desc : Bool) (roots : List FSNode) :
    ((collect_entries_cfg desc roots).map Entry.name).Perm
      ((roots.filter fun d => decide (qualifies d)).map FSNode.name) := by
  have h1 : ((pySortEntries desc (roots.filterMap entryOf)).map Entry.name).Perm
      ((roots.filterMap entryOf).map Entry.name) := (pySortEntries_perm desc _).map _
  rw [filterMap_entryOf_names] at h1
  exact h1

/-! ### Helper lemmas: loop structure, membership, run stability -/

theorem titleImageLoop_prefix_skip (cs : List FSNode) :
    ∀ (pre rest : List String),
      (∀ e ∈ pre, hasExactTitle cs e = false ∧ scanForExt cs e = none) →
      titleImageLoop cs (pre ++ rest) = titleImageLoop cs rest := by
  intro pre
  induction pre with
  | nil => intro rest _; rfl
  | cons e pre ih =>
    intro rest hall
    obtain ⟨h1, h2⟩ := hall e (by simp)
    rw [List.cons_append]
    simp only [titleImageLoop]
    rw [if_neg (by simp [h1]), h2]
    exact ih rest (fun x hx => hall x (by simp [hx]))

theorem mem_collect_entries (desc : Bool) (roots : List FSNode) (e : Entry)
    (h : e ∈ collect_entries_cfg desc roots) : ∃ d ∈ roots, entryOf d = some e := by
  have h1 : e ∈ roots.filterMap entryOf := (pySortEntries_perm desc _).mem_iff.mp h
  obtain ⟨d, hd, hde⟩ := List.mem_filterMap.mp h1
  exact ⟨d, hd, hde⟩

theorem entryOf_dir_eq (n : String) (cs : List FSNode) (e : Entry)
    (h : entryOf (.dir n cs) = some e) :
    e.name = n ∧ (∃ img, has_title_image cs = some img ∧ e.img = n ++ "/" ++ img) ∧
      e.href = link_target n cs := by
  simp only [entryOf] at h
  by_cases hexc : startsWithExcluded n = true
  · rw [if_pos hexc] at h; exact Option.noConfusion h
  · rw [if_neg hexc] at h
    cases him : has_title_image cs with
    | none => rw [him] at h; exact Option.noConfusion h
    | some img =>
      rw [him] at h
      cases h
      exact ⟨rfl, ⟨img, rfl, rfl⟩, rfl⟩

theorem entryOf_dir_none (n : String) (cs : List FSNode) (h : has_title_image cs = none) :
    entryOf (.dir n cs) = none := by
  simp only [entryOf]
  by_cases hexc : startsWithExcluded n = true
  · rw [if_pos hexc]
  · rw [if_neg hexc, h]

theorem filterMap_entryOf_after_run (roots : List FSNode) :
    (after_run roots).filterMap entryOf = roots.filterMap entryOf := by
  unfold after_run
  rw [List.filterMap_append]
  have h2 : List.filterMap entryOf [FSNode.file OUTPUT_FILE] = [] := rfl
  rw [h2, List.append_nil]
  induction roots with
  | nil => rfl
  | cons c rest ih =>
    rw [List.filter_cons]
    by_cases hc : (!(c.isFile && c.name == OUTPUT_FILE)) = true
    · rw [if_pos hc, List.filterMap_cons, List.filterMap_cons, ih]
    · rw [if_neg hc]
      have hnone : entryOf c = none := by
        cases c with
        | file m => rfl
        | dir m cs => simp [FSNode.isFile] at hc
      rw [List.filterMap_cons, hnone, ih]

theorem collect_desc_pairwise_undated (roots : List FSNode) :
    (collect_entries_cfg true roots).Pairwise undatedAfterDated := by
  refine (collect_cfg_pairwise_desc roots).imp ?_
  intro a b hge ha dt hb
  have hle := keyLeB_fst_le _ _ hge
  have e1 : sort_key a.name = (FALLBACK_DATE, a.name) := by simp [sort_key, ha]
  have e2 : sort_key b.name = (dt, b.name) := by simp [sort_key, hb]
  rw [e1, e2] at hle
  exact hle

/-! ### Claim theorems -/

/-- C1, claim as stated, refuted: it is not true that an entry appears in the
output exactly for the direct child folders that are not excluded and contain
a *file* whose stem case-insensitively equals `title` with an allowed
extension.  In `exC1` the folder `20240101_x` contains only a *directory*
named `title.jpg`; the exact-name `Path.exists()` probe accepts it, so an
entry is emitted although the spec's file-based condition holds for no
folder. -/
theorem C1_counterexample :
    ¬ (((collect_entries exC1).map Entry.name).Perm
      ((exC1.filter fun d => decide (specQualifies d)).map FSNode.name)) := by
  intro h
  have h1 : (collect_entries exC1).map Entry.name = ["20240101_x"] := by decide
  have h2 : (exC1.filter fun d => decide (specQualifies d)).map FSNode.name = [] := by decide
  rw [h1, h2] at h
  exact List.cons_ne_nil _ _ h.eq_nil

/-- C1, amended: the names of the emitted entries are exactly (as a
permutation) the direct child folders that are not excluded and either
contain a child of *any* kind named exactly `title.<ext>` for some allowed
extension, or contain a file whose lowercased stem is `title` and whose
lowercased suffix is an allowed extension. -/
theorem C1_amended_theorem (roots : List FSNode) :
    ((collect_entries roots).map Entry.name).Perm
      ((roots.filter fun d => decide (qualifies d)).map FSNode.name) :=
  collect_names_perm true roots

/-- C2, claim as stated, refuted: under the default descending order, two
folders with identical date prefixes are tie-broken by full name
*descending*, not ascending — `20240101_bbb` is emitted before
`20240101_aaa`. -/
theorem C2_counterexample :
    ¬ ((collect_entries exTie).map Entry.name = ["20240101_aaa", "20240101_bbb"]) ∧
    (collect_entries exTie).map Entry.name = ["20240101_bbb", "20240101_aaa"] := by
  constructor
  · decide
  · decide

/-- C2, amended: the emitted sequence is sorted by the sort key — descending
(pairwise `entryGe`) in the shipped configuration, ascending (pairwise
`entryLe`) when the direction flag is cleared; `20240102_trip` precedes
`20240101_trip` under the default, and date ties are broken by full name
descending under the default. -/
theorem C2_amended_theorem :
    (∀ roots, (collect_entries_cfg true roots).Pairwise entryGe) ∧
    (∀ roots, (collect_entries_cfg false roots).Pairwise entryLe) ∧
    (collect_entries exTrips).map Entry.name = ["20240102_trip", "20240101_trip"] ∧
    (collect_entries exTie).map Entry.name = ["20240101_bbb", "20240101_aaa"] :=
  ⟨collect_cfg_pairwise_desc, collect_cfg_pairwise_asc, by decide, by decide⟩

/-- C3, claim as stated, refuted: non-dated folders are *not* placed last
regardless of direction.  Under ascending order `readme` (fallback key
1900-01-01) is emitted before the dated `20240101_trip`; and even under the
default descending order a folder dated exactly 1900-01-01 is emitted after
the non-dated `readme`. -/
theorem C3_counterexample :
    (collect_entries_cfg false exC3).map Entry.name = ["readme", "20240101_trip"] ∧
    (collect_entries exC3edge).map Entry.name = ["readme", "19000101_a"] := by
  constructor
  · decide
  · decide

/-- C3, amended: non-dated folders carry the fallback key date 1900-01-01,
so under the default descending order no folder whose prefix parses to a
date after 1900-01-01 ever appears after a non-dated folder (pairwise
`undatedAfterDated`); concretely `readme` comes after `20240101_trip` under
descending order, but before it under ascending order. -/
theorem C3_amended_theorem :
    (∀ roots, (collect_entries_cfg true roots).Pairwise undatedAfterDated) ∧
    (collect_entries exC3).map Entry.name = ["20240101_trip", "readme"] ∧
    (collect_entries_cfg false exC3).map Entry.name = ["readme", "20240101_trip"] :=
  ⟨collect_desc_pairwise_undated, by decide, by decide⟩

/-- C4, claim as stated, refuted: an exact case-sensitive match does *not*
always beat a scan-fallback match.  In `exC4cs` the exact `title.png` exists,
yet the scan fallback for the earlier-listed `.jpg` extension returns
`TITLE.JPG` (a name that is an exact `title.<ext>` for no allowed
extension). -/
theorem C4_counterexample :
    has_title_image exC4cs = some "TITLE.JPG" ∧
    hasExactTitle exC4cs ".png" = true ∧ ".png" ∈ IMAGE_EXTS ∧
    (∀ ext ∈ IMAGE_EXTS, ¬ "TITLE.JPG" = IMAGE_BASENAME ++ ext) := by
  decide

/-- C4, amended: the lookup proceeds extension by extension in list order,
probing the exact name first and then scanning case-insensitively *for that
same extension*; the first extension with any match decides the result, the
exact match winning over the scan only within one extension.  Hence a scan
match for an earlier-listed extension beats an exact match for a later
one. -/
theorem C4_amended_theorem (cs : List FSNode) (pre post : List String) (ext : String)
    (hsplit : IMAGE_EXTS = pre ++ ext :: post)
    (hpre : ∀ e ∈ pre, hasExactTitle cs e = false ∧ scanForExt cs e = none) :
    (hasExactTitle cs ext = true → has_title_image cs = some (IMAGE_BASENAME ++ ext)) ∧
    (∀ n, hasExactTitle cs ext = false → scanForExt cs ext = some n →
      has_title_image cs = some n) := by
  have hloop : has_title_image cs = titleImageLoop cs (ext :: post) := by
    unfold has_title_image
    rw [hsplit]
    exact titleImageLoop_prefix_skip cs pre (ext :: post) hpre
  constructor
  · intro hex
    rw [hloop]
    simp only [titleImageLoop]
    rw [if_pos hex]
  · intro n hex hscan
    rw [hloop]
    simp only [titleImageLoop]
    rw [if_neg (by simp [hex]), hscan]

/-- C4, witness: applying the amended theorem at the first extension `.jpg`
of `exC4cs`, where the exact probe misses and the scan finds `TITLE.JPG`. -/
theorem C4_witness : has_title_image exC4cs = some "TITLE.JPG" :=
  (C4_amended_theorem exC4cs [] [".jpeg", ".png", ".webp", ".gif"] ".jpg" rfl
    (fun e he => absurd he (List.not_mem_nil e))).2 "TITLE.JPG" (by decide) (by decide)

/-- C5, claim as stated, refuted: for a qualifying folder without
`_index.html` the emitted URL is the folder path *without* any trailing
separator — `20240101_trip`, not `20240101_trip/`. -/
theorem C5_counterexample :
    (collect_entries exC5).map (fun e => urlOfPath e.href) = ["20240101_trip"] ∧
    ¬ ((collect_entries exC5).map (fun e => urlOfPath e.href) = ["20240101_trip/"]) := by
  constructor
  · decide
  · decide

/-- C5, amended: every emitted entry comes from a direct child folder of the
root; its link path is `folder/_index.html` when a child of that name exists
and the bare folder path otherwise (no separator appended), and its image
path is the folder path joined with the discovered title-image name. -/
theorem C5_amended_theorem (roots : List FSNode) (e : Entry)
    (h : e ∈ collect_entries roots) :
    ∃ cs, FSNode.dir e.name cs ∈ roots ∧
      e.href = (if cs.any (fun c => c.name == "_index.html") then e.name ++ "/_index.html"
        else e.name) ∧
      (∃ img, has_title_image cs = some img ∧ e.img = e.name ++ "/" ++ img) := by
  obtain ⟨d, hd, he⟩ := mem_collect_entries true roots e h
  cases d with
  | file m => exact absurd he (by simp [entryOf])
  | dir m cs =>
    obtain ⟨hname, ⟨img, him, himg⟩, hhref⟩ := entryOf_dir_eq m cs e he
    refine ⟨cs, ?_, ?_, ⟨img, him, ?_⟩⟩
    · rw [hname]; exact hd
    · rw [hname, hhref]; rfl
    · rw [hname, himg]

/-- C5, witness: the amended theorem applied to the single entry collected
from `exC5idx`, whose folder holds an `_index.html`. -/
theorem C5_witness :
    ∃ cs, FSNode.dir exC5entry.name cs ∈ exC5idx ∧
      exC5entry.href = (if cs.any (fun c => c.name == "_index.html") then
        exC5entry.name ++ "/_index.html" else exC5entry.name) ∧
      (∃ img, has_title_image cs = some img ∧
        exC5entry.img = exC5entry.name ++ "/" ++ img) :=
  C5_amended_theorem exC5idx exC5entry (by decide)

/-- C6, confirmed: a name whose leading 8 digits do not form a valid
calendar date gets exactly the fallback key `(1900-01-01, name)` — the same
key shape, with the same date component, as any name with no 8-digit prefix
at all; such folders are retained and sorted identically to undated ones. -/
theorem C6_theorem (name other : String)
    (h1 : hasEightDigits name = true)
    (h2 : validDate (prefixYMD name).1 (prefixYMD name).2.1 (prefixYMD name).2.2 = false)
    (h3 : looks_like_yyyymmdd other = none) :
    sort_key name = (FALLBACK_DATE, name) ∧ sort_key other = (FALLBACK_DATE, other) ∧
      (sort_key name).1 = (sort_key other).1 := by
  have hn : looks_like_yyyymmdd name = none := by
    unfold looks_like_yyyymmdd
    rw [if_pos h1, if_neg (by simp [h2])]
  refine ⟨?_, ?_, ?_⟩
  · simp [sort_key, hn]
  · simp [sort_key, h3]
  · simp [sort_key, hn, h3]

/-- C6, witness: `20241301_bad` (month 13) keyed exactly like the undated
`readme`. -/
theorem C6_witness :
    sort_key "20241301_bad" = (FALLBACK_DATE, "20241301_bad") ∧
    sort_key "readme" = (FALLBACK_DATE, "readme") ∧
    (sort_key "20241301_bad").1 = (sort_key "readme").1 :=
  C6_theorem "20241301_bad" "readme" (by decide) (by decide) (by decide)

/-- C7, claim as stated, refuted: the program emits exactly one artifact —
the HTML page `index.html` — and no separate manifest file for the page to
reference. -/
theorem C7_counterexample :
    (main_outputs exC5).length = 1 ∧ (main_outputs exC5).map Prod.fst = [OUTPUT_FILE] ∧
    OUTPUT_FILE = "index.html" :=
  ⟨rfl, rfl, rfl⟩

/-- C7, amended: the single written artifact is the page, and when entries
exist they are embedded directly in it — the card markup of each entry in
sort order, joined by newlines between the fixed template halves — rather
than referenced through a manifest. -/
theorem C7_amended_theorem (roots : List FSNode) (h : collect_entries roots ≠ []) :
    main_outputs roots =
      [(OUTPUT_FILE, HTML_BEFORE_CARDS ++
        joinWithNewline ((collect_entries roots).map cardHtml) ++ HTML_AFTER_CARDS)] ∧
    (main_outputs roots).length = 1 := by
  refine ⟨?_, rfl⟩
  unfold main_outputs build_html cardsSection
  cases hc : collect_entries roots with
  | nil => exact absurd hc h
  | cons e rest => simp

/-- C7, witness: the amended theorem applied to `exC5`, which yields one
entry. -/
theorem C7_witness :
    main_outputs exC5 =
      [(OUTPUT_FILE, HTML_BEFORE_CARDS ++
        joinWithNewline ((collect_entries exC5).map cardHtml) ++ HTML_AFTER_CARDS)] ∧
    (main_outputs exC5).length = 1 :=
  C7_amended_theorem exC5 (by decide)

/-- C8, confirmed: a folder whose cover-image lookup finds nothing is
silently dropped — the collected (and sorted) entry list over any root is
unchanged when such a folder is removed, for either sort direction, and the
collection is total (no error path exists in the model). -/
theorem C8_theorem (desc : Bool) (pre post : List FSNode) (nm : String) (cs : List FSNode)
    (h : has_title_image cs = none) :
    collect_entries_cfg desc (pre ++ FSNode.dir nm cs :: post) =
      collect_entries_cfg desc (pre ++ post) := by
  unfold collect_entries_cfg
  rw [List.filterMap_append, List.filterMap_append, List.filterMap_cons,
    entryOf_dir_none nm cs h]

/-- C8, witness: dropping the imageless `20240102_b` folder leaves the
collection over `exC8pre` unchanged. -/
theorem C8_witness :
    collect_entries_cfg true (exC8pre ++ FSNode.dir "20240102_b" exC8cs :: []) =
      collect_entries_cfg true (exC8pre ++ []) :=
  C8_theorem true exC8pre [] "20240102_b" exC8cs (by decide)

/-- C9, confirmed: the run is a pure function of the scanned listing (its
output text is produced by total functions of the tree), and re-running over
the tree as left behind by a successful run — with the written `index.html`
file present at the root — produces byte-identical output text. -/
theorem C9_theorem (roots : List FSNode) : run_output (after_run roots) = run_output roots := by
  unfold run_output collect_entries collect_entries_cfg
  rw [filterMap_entryOf_after_run]

/-- C10, confirmed: when no folder qualifies the run still completes and
writes the page, whose grid holds the fixed placeholder paragraph instead of
cards. -/
theorem C10_theorem (roots : List FSNode) (h : collect_entries roots = []) :
    main_outputs roots =
      [(OUTPUT_FILE, HTML_BEFORE_CARDS ++ EMPTY_PLACEHOLDER ++ HTML_AFTER_CARDS)] ∧
    EMPTY_PLACEHOLDER = "<p>目前沒有找到任何含 title 圖片的子資料夾。</p>" := by
  refine ⟨?_, rfl⟩
  unfold main_outputs build_html cardsSection
  rw [h]
  rfl

/-- C10, witness: the root `exEmpty`, whose only folder is excluded, yields
no entries and the placeholder page. -/
theorem C10_witness :
    main_outputs exEmpty =
      [(OUTPUT_FILE, HTML_BEFORE_CARDS ++ EMPTY_PLACEHOLDER ++ HTML_AFTER_CARDS)] ∧
    EMPTY_PLACEHOLDER = "<p>目前沒有找到任何含 title 圖片的子資料夾。</p>" :=
  C10_theorem exEmpty (by decide)

end BuildIndex
